import Mathlib

/-!
Shallow embedding of the multi-agent think-tank orchestration core
(`src/agents/base_agent.py`, `src/agents/analyst_agent.py`,
`src/workflow/base_node.py`).

Python values are modelled by the inductive `PyVal`; Python exceptions by
`PyErr` (the source only ever raises message-string exceptions, modelled by
`PyErr.message`; `PyErr.analysisFailure` is the structured error the spec
describes and is never produced by any source translation).  Stateful
methods become explicit state-passing functions.  Floats are modelled by
`ℚ` (the decay factors 0.8 and 0.9 are exact).
-/

/-- Dynamic (JSON-like) values passed around by the Python code. -/
inductive PyVal where
  | pnone : PyVal
  | pstr : String → PyVal
  | pnum : ℚ → PyVal
  | plist : List PyVal → PyVal
  | pdict : List (String × PyVal) → PyVal
deriving Inhabited

/-- Python exceptions as raised by the source.  Every `raise` in the source
is `Exception(f"...")`, i.e. carries only a message string (`message`).
The `analysisFailure` constructor follows the spec's words
(`AnalysisFailure{stage, cause}`) and is never produced by the source
translation; it exists so the spec's structured-error claim can be stated. -/
inductive PyErr where
  | message : String → PyErr
  | analysisFailure : (stage : String) → (cause : String) → PyErr
deriving DecidableEq, Inhabited

/-- Decides whether an error value is the structured failure the spec
describes (stage and cause as fields) rather than only a message string. -/
def PyErr.isStructured : PyErr → Bool
  | .message _ => false
  | .analysisFailure _ _ => true

/-- AgentState from `src/agents/base_agent.py` lines 17-22: current task
label, free-form memory map, confidence (initialized 1.0), context map. -/
structure AgentState where
  current_task : Option String
  memory : List (String × PyVal)
  confidence : ℚ
  context : List (String × PyVal)

/-- Initial agent state: pydantic defaults of `AgentState` (base_agent.py
lines 19-22): no task, empty memory, confidence 1.0, empty context. -/
def initAgentState : AgentState :=
  { current_task := none, memory := [], confidence := 1, context := [] }

/-- One entry of the dict passed to `BaseAgent.update_state`.  `AgentState`
is a pydantic v1 `BaseModel` (config.py imports the v1 `BaseSettings` API),
so the keys fall into three classes.  A key naming one of the four fields
(`current_task`, `memory`, `confidence`, `context`): `hasattr` holds and
`setattr` assigns — the four `set*` constructors.  A key naming a
`BaseModel` attribute that is not a field (such as "dict", "json", "copy",
"schema"): `hasattr` also holds, but pydantic's `__setattr__` then raises
`ValueError('"AgentState" object has no field "<key>"')` — the
`nonFieldAttr` constructor, carrying the key.  A key naming no attribute at
all: the `hasattr` test fails and the entry is skipped — `unknownKey`. -/
inductive StateUpdateEntry where
  | setTask : Option String → StateUpdateEntry
  | setMemory : List (String × PyVal) → StateUpdateEntry
  | setConfidence : ℚ → StateUpdateEntry
  | setContext : List (String × PyVal) → StateUpdateEntry
  | nonFieldAttr : String → StateUpdateEntry
  | unknownKey : String → StateUpdateEntry

/-- The `ValueError` pydantic v1's `__setattr__` raises when `setattr` is
reached with an attribute name that is not a model field. -/
def noFieldError (key : String) : PyErr :=
  .message ("\"AgentState\" object has no field \"" ++ key ++ "\"")

/-- BaseAgent.update_state (base_agent.py lines 59-63): iterate the supplied
mapping in order; a key naming a field is assigned; a key naming a
`BaseModel` non-field attribute passes the `hasattr` test and then raises
`ValueError` out of the loop (assignments already made persist, later
entries are not reached); a key naming no attribute is skipped. -/
def update_state (st : AgentState) : List StateUpdateEntry → AgentState × Except PyErr Unit
  | [] => (st, .ok ())
  | .setTask v :: es => update_state { st with current_task := v } es
  | .setMemory v :: es => update_state { st with memory := v } es
  | .setConfidence v :: es => update_state { st with confidence := v } es
  | .setContext v :: es => update_state { st with context := v } es
  | .nonFieldAttr k :: _ => (st, .error (noFieldError k))
  | .unknownKey _ :: es => update_state st es

/-- NodeConfig from `src/workflow/base_node.py` lines 19-26. -/
structure NodeConfig where
  name : String
  description : String
  required_agents : List String
  max_iterations : Nat
  timeout_seconds : Nat
  auto_proceed : Bool
deriving Inhabited

/-- NodeState from `src/workflow/base_node.py` lines 11-17. -/
structure NodeState where
  active : Bool
  completed : Bool
  iteration : Nat
  results : List (String × PyVal)
  errors : List String
deriving Inhabited

/-- Initial node state: pydantic defaults of `NodeState` (base_node.py
lines 13-17). -/
def initNodeState : NodeState :=
  { active := false, completed := false, iteration := 0, results := [], errors := [] }

/-- A workflow node (`BaseWorkflowNode.__init__`, base_node.py lines 31-36).
Nodes are Python objects with identity; in the embedding a graph is a list
of nodes and the `next_nodes` / `previous_nodes` references are indices
into that list.  `participating_agents` maps the (lowercased) key to the
bound agent, identified by its personality name. -/
structure WorkflowNode where
  config : NodeConfig
  state : NodeState
  next_nodes : List Nat
  previous_nodes : List Nat
  participating_agents : List (String × String)
deriving Inhabited

/-- BaseWorkflowNode.start (base_node.py lines 85-91): set active, reset the
iteration counter, clear the completed flag, clear results and errors. -/
def nodeStart (st : NodeState) : NodeState :=
  { st with active := true, iteration := 0, completed := false, results := [], errors := [] }

/-- BaseWorkflowNode.complete (base_node.py lines 93-102): clear active, set
completed, store the final results. -/
def nodeComplete (st : NodeState) (results : List (String × PyVal)) : NodeState :=
  { st with active := false, completed := true, results := results }

/-- BaseWorkflowNode.handle_error (base_node.py lines 104-113): append
`str(error)` to the error list; if the error count has reached
`max_iterations`, raise `RuntimeError` (returned as `Except.error`). -/
def handle_error (max_iterations : Nat) (st : NodeState) (err : String) :
    NodeState × Except PyErr Unit :=
  let st' := { st with errors := st.errors ++ [err] }
  if max_iterations ≤ st'.errors.length then
    (st', .error (.message
      ("Max iterations (" ++ toString max_iterations ++ ") reached with errors")))
  else
    (st', .ok ())

/-- Repeated `handle_error` calls on one node, threading the state and
recording for each call whether it raised. -/
def runHandleErrors (max_iterations : Nat) (st : NodeState) :
    List String → NodeState × List Bool
  | [] => (st, [])
  | e :: es =>
    let r := handle_error max_iterations st e
    let raised := match r.2 with | .error _ => true | .ok _ => false
    let rest := runHandleErrors max_iterations r.1 es
    (rest.1, raised :: rest.2)

/-- BaseWorkflowNode.add_next_node (base_node.py lines 61-64): append `b` to
`a`'s next-node list and `a` to `b`'s previous-node list (two sequential
mutations; no duplicate check). Out-of-range indices leave the graph
unchanged (`List.set` is the identity there). -/
def add_next_node (g : List WorkflowNode) (a b : Nat) : List WorkflowNode :=
  let na := g.getD a default
  let g1 := g.set a { na with next_nodes := na.next_nodes ++ [b] }
  let nb := g1.getD b default
  g1.set b { nb with previous_nodes := nb.previous_nodes ++ [a] }

/-- Rendering of the `ValueError` raised by `validate_readiness`; the exact
textual form of Python's set repr is abstracted to a comma-separated list. -/
def missingAgentsError (names : List String) : PyErr :=
  .message ("Missing required agents: " ++ String.intercalate ", " names)

/-- BaseWorkflowNode.validate_readiness (base_node.py lines 66-83), for the
node at index `i` of graph `g`, with the ambient agent registry `agents`
threaded through to record that the method mutates nothing: compute the
required names not among the participating-agent keys; if any, raise
`ValueError`; otherwise return `false` if some previous node is not
completed, else `true`.  (`set(required) - set(keys)` is modelled by a
filter; only its emptiness matters and that agrees with set difference.) -/
def validate_readiness (agents : List (String × AgentState)) (g : List WorkflowNode)
    (i : Nat) : (List (String × AgentState) × List WorkflowNode) × Except PyErr Bool :=
  ((agents, g),
    let n := g.getD i default
    let keys := n.participating_agents.map Prod.fst
    let missing := n.config.required_agents.filter (fun r => !keys.contains r)
    if missing.isEmpty then
      .ok (n.previous_nodes.all fun j => (g.getD j default).state.completed)
    else
      .error (missingAgentsError missing))

/-- Leaf helper methods of `AnalystAgent` (analyst_agent.py lines 261-365).
In the source every one of them is an explicit "Implementation needed"
placeholder, intended to be filled in; the model is therefore parameterized
by their behaviour (each may return a value or raise, as any Python callable
may), while the control flow of `process`, `collaborate` and the phase
wrappers is translated exactly.  Error values inside the agent are the
message strings `str(e)` that the source interpolates. -/
structure AnalystImpl where
  validate_data : PyVal → Except String PyVal
  clean_data : PyVal → Except String PyVal
  structure_data : PyVal → Except String PyVal
  calculate_basic_statistics : PyVal → Except String PyVal
  calculate_advanced_statistics : PyVal → Except String PyVal
  analyze_correlations : PyVal → Except String PyVal
  find_temporal_patterns : PyVal → Except String (List PyVal)
  find_structural_patterns : PyVal → Except String (List PyVal)
  find_behavioral_patterns : PyVal → Except String (List PyVal)
  identify_trends : PyVal → Except String (List PyVal)
  classify_trends : List PyVal → Except String PyVal
  project_trends : PyVal → Except String PyVal
  derive_statistical_insights : PyVal → Except String (List PyVal)
  derive_pattern_insights : List PyVal → Except String (List PyVal)
  derive_trend_insights : PyVal → Except String (List PyVal)
  derive_cross_analysis_insights : PyVal → List PyVal → PyVal → Except String (List PyVal)
  create_recommendations : List PyVal → Except String (List PyVal)
  document_methodology : Except String PyVal
  summarize_data : PyVal → Except String PyVal
  validate_external_analysis : PyVal → Except String PyVal
  combine_analyses : Option PyVal → PyVal → Except String PyVal
  generate_collaborative_insights : PyVal → String → Except String (List PyVal)

/-- AnalystAgent._prepare_data (analyst_agent.py lines 147-162): validate,
clean and structure the data; on any exception re-raise with the
"Data preparation failed: " prefix. -/
def prepare_data (impl : AnalystImpl) (input_data : PyVal) : Except String PyVal :=
  match (do
    let validated ← impl.validate_data input_data
    let cleaned ← impl.clean_data validated
    impl.structure_data cleaned) with
  | .ok r => .ok r
  | .error e => .error ("Data preparation failed: " ++ e)

/-- AnalystAgent._perform_statistical_analysis (lines 164-183). -/
def perform_statistical_analysis (impl : AnalystImpl) (data : PyVal) : Except String PyVal :=
  match (do
    let basic ← impl.calculate_basic_statistics data
    let advanced ← impl.calculate_advanced_statistics data
    let correlations ← impl.analyze_correlations data
    pure (PyVal.pdict [("basic_statistics", basic), ("advanced_statistics", advanced),
      ("correlations", correlations)])) with
  | .ok r => .ok r
  | .error e => .error ("Statistical analysis failed: " ++ e)

/-- AnalystAgent._identify_patterns (lines 185-204): the partial `patterns`
list built before an exception is discarded because the exception
propagates out of the method. -/
def identify_patterns (impl : AnalystImpl) (data : PyVal) : Except String (List PyVal) :=
  match (do
    let temporal ← impl.find_temporal_patterns data
    let structural ← impl.find_structural_patterns data
    let behavioral ← impl.find_behavioral_patterns data
    pure (temporal ++ structural ++ behavioral)) with
  | .ok r => .ok r
  | .error e => .error ("Pattern identification failed: " ++ e)

/-- AnalystAgent._analyze_trends (lines 206-225). -/
def analyze_trends (impl : AnalystImpl) (data : PyVal) : Except String PyVal :=
  match (do
    let trends ← impl.identify_trends data
    let classified ← impl.classify_trends trends
    let projections ← impl.project_trends classified
    pure (PyVal.pdict [("identified_trends", PyVal.plist trends),
      ("trend_classification", classified), ("trend_projections", projections)])) with
  | .ok r => .ok r
  | .error e => .error ("Trend analysis failed: " ++ e)

/-- AnalystAgent._generate_insights (lines 227-259). -/
def generate_insights (impl : AnalystImpl) (statistical : PyVal)
    (patterns : List PyVal) (trends : PyVal) : Except String (List PyVal) :=
  match (do
    let s ← impl.derive_statistical_insights statistical
    let p ← impl.derive_pattern_insights patterns
    let t ← impl.derive_trend_insights trends
    let c ← impl.derive_cross_analysis_insights statistical patterns trends
    pure (s ++ p ++ t ++ c)) with
  | .ok r => .ok r
  | .error e => .error ("Insight generation failed: " ++ e)

/-- The mutable fields of an `AnalystAgent`
(analyst_agent.py lines 41-43 and the inherited `BaseAgent.state`). -/
structure AnalystAgent where
  state : AgentState
  analysis_history : List PyVal
  current_analysis : Option PyVal

/-- AnalystAgent as constructed (lines 22-43): fresh `AgentState` (so
confidence 1.0), empty history, no current analysis. -/
def initAnalyst : AnalystAgent :=
  { state := initAgentState, analysis_history := [], current_analysis := none }

/-- Body of the `try` block of AnalystAgent.process (analyst_agent.py lines
57-93), run on the agent whose task label was already updated.  The
wall-clock `datetime.now().isoformat()` is supplied as the parameter
`now`. -/
def processBody (impl : AnalystImpl) (a : AnalystAgent) (now : String)
    (input_data : PyVal) : Except String PyVal := do
  let prepared ← prepare_data impl input_data
  let statistical ← perform_statistical_analysis impl prepared
  let patterns ← identify_patterns impl prepared
  let trends ← analyze_trends impl prepared
  let insights ← generate_insights impl statistical patterns trends
  let recommendations ← impl.create_recommendations insights
  let summary ← impl.summarize_data prepared
  let methodology ← impl.document_methodology
  pure (PyVal.pdict [("timestamp", .pstr now), ("data_summary", summary),
    ("statistical_analysis", statistical), ("pattern_analysis", .plist patterns),
    ("trend_analysis", trends), ("insights", .plist insights),
    ("recommendations", .plist recommendations),
    ("confidence_score", .pnum a.state.confidence),
    ("methodology", methodology)])

/-- Outcome handling of AnalystAgent.process (lines 55-97): run the body;
on success record and return the result, on exception decay confidence by
0.8 and re-raise. -/
def analystProcess (impl : AnalystImpl) (a : AnalystAgent) (now : String)
    (input_data : PyVal) : AnalystAgent × Except PyErr PyVal :=
  let a := { a with state := (update_state a.state [.setTask (some "data_analysis")]).1 }
  match processBody impl a now input_data with
  | .ok result =>
    ({ a with analysis_history := a.analysis_history ++ [result],
              current_analysis := some result }, .ok result)
  | .error e =>
    ({ a with state := { a.state with confidence := a.state.confidence * (4/5) } },
      .error (.message ("Analysis failed: " ++ e)))

/-- Body of the `try` block of AnalystAgent.collaborate (analyst_agent.py
lines 114-141), run on the agent whose task label was already updated.  The
peer is its personality name plus its `process` method viewed from the
caller: the caller only consumes the returned value or the raised message
(`str(e)`). -/
def collaborateBody (impl : AnalystImpl) (a : AnalystAgent) (peerName : String)
    (peerProcess : PyVal → Except String PyVal) (now : String) (context : PyVal) :
    Except String PyVal := do
  let other_analysis ← peerProcess context
  let validated ← impl.validate_external_analysis other_analysis
  let combined ← impl.combine_analyses a.current_analysis validated
  let insights ← impl.generate_collaborative_insights combined peerName
  pure (PyVal.pdict [("combined_analysis", combined),
    ("collaborative_insights", .plist insights),
    ("confidence_score", .pnum a.state.confidence),
    ("collaboration_metadata", .pdict [("partner", .pstr peerName),
      ("timestamp", .pstr now)])])

/-- Outcome handling of AnalystAgent.collaborate (lines 110-145): set the
task label naming the peer, run the body; on success return the combined
payload, on exception decay confidence by 0.9 and re-raise. -/
def analystCollaborate (impl : AnalystImpl) (a : AnalystAgent) (peerName : String)
    (peerProcess : PyVal → Except String PyVal) (now : String) (context : PyVal) :
    AnalystAgent × Except PyErr PyVal :=
  let a := { a with
    state := (update_state a.state [.setTask (some ("collaboration_with_" ++ peerName))]).1 }
  match collaborateBody impl a peerName peerProcess now context with
  | .ok result => (a, .ok result)
  | .error e =>
    ({ a with state := { a.state with confidence := a.state.confidence * (9/10) } },
      .error (.message ("Collaborative analysis failed: " ++ e)))

/-- One call made on an analyst agent: either `process` or `collaborate`,
with all the inputs the call depends on. -/
inductive AgentCall where
  | callProcess (impl : AnalystImpl) (now : String) (input_data : PyVal)
  | callCollaborate (impl : AnalystImpl) (peerName : String)
      (peerProcess : PyVal → Except String PyVal) (now : String) (context : PyVal)

/-- Execute one call on the agent. -/
def doCall (a : AnalystAgent) : AgentCall → AnalystAgent × Except PyErr PyVal
  | .callProcess impl now input_data => analystProcess impl a now input_data
  | .callCollaborate impl peerName peerProcess now context =>
      analystCollaborate impl a peerName peerProcess now context

/-- Execute a sequence of calls, keeping the agent's final state. -/
def runCalls (a : AnalystAgent) (cs : List AgentCall) : AnalystAgent :=
  cs.foldl (fun a c => (doCall a c).1) a

/-- Whether a call is a `process` call. -/
def AgentCall.isProcess : AgentCall → Prop
  | .callProcess _ _ _ => True
  | .callCollaborate _ _ _ _ _ => False

/-- Whether a call is a `collaborate` call. -/
def AgentCall.isCollaborate : AgentCall → Prop
  | .callProcess _ _ _ => False
  | .callCollaborate _ _ _ _ _ => True

/-- Whether, run from agent state `a`, the call raises. -/
def callFails (a : AnalystAgent) (c : AgentCall) : Prop :=
  ∃ e, (doCall a c).2 = .error e

/-- Every call of the sequence raises, each run from the state the previous
calls produced. -/
def allCallsFail : AnalystAgent → List AgentCall → Prop
  | _, [] => True
  | a, c :: cs => callFails a c ∧ allCallsFail (doCall a c).1 cs

/-- Literal translation of the placeholder helper bodies of `AnalystAgent`
(analyst_agent.py lines 261-365): each stub returns exactly the constant
the source returns and never raises. -/
def stubImpl : AnalystImpl where
  validate_data := fun data => .ok data
  clean_data := fun data => .ok data
  structure_data := fun data => .ok (.pdict [("data", data)])
  calculate_basic_statistics := fun _ => .ok (.pdict [("stats", .pstr "Implementation needed")])
  calculate_advanced_statistics := fun _ =>
    .ok (.pdict [("advanced_stats", .pstr "Implementation needed")])
  analyze_correlations := fun _ => .ok (.pdict [("correlations", .pstr "Implementation needed")])
  find_temporal_patterns := fun _ => .ok [.pdict [("pattern", .pstr "Implementation needed")]]
  find_structural_patterns := fun _ => .ok [.pdict [("pattern", .pstr "Implementation needed")]]
  find_behavioral_patterns := fun _ => .ok [.pdict [("pattern", .pstr "Implementation needed")]]
  identify_trends := fun _ => .ok [.pdict [("trend", .pstr "Implementation needed")]]
  classify_trends := fun _ => .ok (.pdict [("classifications", .plist [])])
  project_trends := fun _ => .ok (.pdict [("projections", .pstr "Implementation needed")])
  derive_statistical_insights := fun _ => .ok [.pdict [("insight", .pstr "Implementation needed")]]
  derive_pattern_insights := fun _ => .ok [.pdict [("insight", .pstr "Implementation needed")]]
  derive_trend_insights := fun _ => .ok [.pdict [("insight", .pstr "Implementation needed")]]
  derive_cross_analysis_insights := fun _ _ _ =>
    .ok [.pdict [("insight", .pstr "Implementation needed")]]
  create_recommendations := fun _ =>
    .ok [.pdict [("recommendation", .pstr "Implementation needed")]]
  document_methodology :=
    .ok (.pdict [("methods", .plist [.pstr "statistical_analysis",
      .pstr "pattern_recognition", .pstr "trend_analysis"]),
      ("tools", .plist [.pstr "numpy", .pstr "custom_analytics"]),
      ("validation_approach", .pstr "cross_validation")])
  summarize_data := fun _ => .ok (.pdict [("summary", .pstr "Implementation needed")])
  validate_external_analysis := fun analysis => .ok analysis
  combine_analyses := fun _ _ => .ok (.pdict [("combined", .pstr "Implementation needed")])
  generate_collaborative_insights := fun _ _ =>
    .ok [.pdict [("insight", .pstr "Implementation needed")]]

/-- Implementation whose data-validation step always raises `boom`: a
concrete instance of an agent whose processing fails. -/
def failingImpl : AnalystImpl :=
  { stubImpl with validate_data := fun _ => .error "boom" }

/-- Lookup in a Python dict modelled as an association list (keys are
unique in every dict the source builds, so first match is the value). -/
def dictGet (k : String) : List (String × PyVal) → Option PyVal
  | [] => none
  | (k', v) :: rest => if k' = k then some v else dictGet k rest

/-- ASCII case folding of one character, as Python's `str.lower` acts on
the ASCII range (the range all agent personality names use). -/
def lowerChar (c : Char) : Char :=
  if 65 ≤ c.toNat ∧ c.toNat ≤ 90 then Char.ofNat (c.toNat + 32) else c

/-- Python's `str.lower`, modelled characterwise over the ASCII range. -/
def pyLower (s : String) : String :=
  String.mk (s.data.map lowerChar)

/-- Whether a character is an ASCII uppercase letter. -/
def isUpperAscii (c : Char) : Bool :=
  65 ≤ c.toNat && c.toNat ≤ 90

/-- Assignment `d[k] = v` on a Python dict modelled as an association
list: replace the value of an existing key, otherwise append the binding. -/
def dictSet (d : List (String × String)) (k v : String) : List (String × String) :=
  if d.any (fun p => p.1 == k) then d.map (fun p => if p.1 == k then (k, v) else p)
  else d ++ [(k, v)]

/-- BaseWorkflowNode.connect_agent (base_node.py lines 51-59): if the
lowercased personality name of the agent is in `required_agents`, store the
agent under that lowercased key; otherwise do nothing.  The agent is
identified by its personality name. -/
def connect_agent (node : WorkflowNode) (agentName : String) : WorkflowNode :=
  if node.config.required_agents.contains (pyLower agentName) then
    let d := dictSet node.participating_agents (pyLower agentName) agentName
    { node with participating_agents := d }
  else node

/-- One state-mutating node operation of the `BaseWorkflowNode` state
machine: `start`, `complete`, or `handle_error` (whose raise, if any, does
not change the flags). -/
inductive NodeOp where
  | opStart : NodeOp
  | opComplete : List (String × PyVal) → NodeOp
  | opHandleError : Nat → String → NodeOp

/-- Apply one node operation to a node state. -/
def applyNodeOp (st : NodeState) : NodeOp → NodeState
  | .opStart => nodeStart st
  | .opComplete results => nodeComplete st results
  | .opHandleError max_iterations err => (handle_error max_iterations st err).1

/-- Node states reachable from the initial state by node operations. -/
inductive ReachableNodeState : NodeState → Prop where
  | init : ReachableNodeState initNodeState
  | step : ∀ {st : NodeState} (op : NodeOp),
      ReachableNodeState st → ReachableNodeState (applyNodeOp st op)

/-- The NodeState invariant of the spec: `completed ⇒ ¬active`. -/
def NodeInv (st : NodeState) : Prop :=
  st.completed = true → st.active = false

/-- Value of the last `current_task` assignment an update list performs,
if any. -/
def lastSetTask : List StateUpdateEntry → Option (Option String)
  | [] => none
  | e :: es =>
    match lastSetTask es with
    | some v => some v
    | none => match e with | .setTask v => some v | _ => none

/-- Value of the last `memory` assignment an update list performs, if any. -/
def lastSetMemory : List StateUpdateEntry → Option (List (String × PyVal))
  | [] => none
  | e :: es =>
    match lastSetMemory es with
    | some v => some v
    | none => match e with | .setMemory v => some v | _ => none

/-- Value of the last `confidence` assignment an update list performs, if
any. -/
def lastSetConfidence : List StateUpdateEntry → Option ℚ
  | [] => none
  | e :: es =>
    match lastSetConfidence es with
    | some v => some v
    | none => match e with | .setConfidence v => some v | _ => none

/-- Value of the last `context` assignment an update list performs, if any. -/
def lastSetContext : List StateUpdateEntry → Option (List (String × PyVal))
  | [] => none
  | e :: es =>
    match lastSetContext es with
    | some v => some v
    | none => match e with | .setContext v => some v | _ => none

/-- Whether an update entry carries a key that names no attribute at all
(the `hasattr` test fails and the entry is skipped). -/
def StateUpdateEntry.isUnknown : StateUpdateEntry → Bool
  | .unknownKey _ => true
  | _ => false

/-- Whether an update entry carries a key naming a pydantic non-field
attribute (the class of keys on which `setattr` raises `ValueError`). -/
def StateUpdateEntry.isNonField : StateUpdateEntry → Bool
  | .nonFieldAttr _ => true
  | _ => false

theorem handle_error_fst (m : Nat) (st : NodeState) (e : String) :
    (handle_error m st e).1 = { st with errors := st.errors ++ [e] } := by
  simp only [handle_error]
  split <;> rfl

theorem handle_error_raised (m : Nat) (st : NodeState) (e : String) :
    (match (handle_error m st e).2 with | .error _ => true | .ok _ => false)
      = decide (m ≤ st.errors.length + 1) := by
  by_cases h : m ≤ st.errors.length + 1
  · simp [handle_error, h]
  · simp [handle_error, h]

/-- C5: for every prior node state, `start()` leaves the iteration counter
at 0, the results map empty, the error list empty, the active flag true and
the completed flag false. -/
theorem start_resets_node_state (st : NodeState) :
    (nodeStart st).iteration = 0 ∧ (nodeStart st).results = [] ∧
    (nodeStart st).errors = [] ∧ (nodeStart st).active = true ∧
    (nodeStart st).completed = false := by
  simp [nodeStart]

/-- C6: the invariant `completed ⇒ ¬active` holds in the initial node state,
is preserved by `start`, `complete` and `handle_error`, and therefore no
reachable node state has both flags true. -/
theorem node_invariant_completed_not_active :
    NodeInv initNodeState ∧
    (∀ (st : NodeState) (op : NodeOp), NodeInv st → NodeInv (applyNodeOp st op)) ∧
    (∀ st : NodeState, ReachableNodeState st →
      ¬(st.completed = true ∧ st.active = true)) := by
  have hinit : NodeInv initNodeState := by
    intro h
    simp [initNodeState] at h
  have hpres : ∀ (st : NodeState) (op : NodeOp), NodeInv st → NodeInv (applyNodeOp st op) := by
    intro st op h
    cases op with
    | opStart =>
      intro hc
      simp [applyNodeOp, nodeStart] at hc
    | opComplete r =>
      intro hc
      simp [applyNodeOp, nodeComplete]
    | opHandleError m e =>
      intro hc
      simp only [applyNodeOp, handle_error_fst] at hc ⊢
      exact h hc
  refine ⟨hinit, hpres, ?_⟩
  intro st hreach
  have hinv : NodeInv st := by
    induction hreach with
    | init => exact hinit
    | step op _ ih => exact hpres _ op ih
  rintro ⟨hc, ha⟩
  rw [hinv hc] at ha
  exact Bool.false_ne_true ha

theorem node_invariant_completed_not_active_witness :
    ¬((applyNodeOp initNodeState (.opComplete [])).completed = true ∧
      (applyNodeOp initNodeState (.opComplete [])).active = true) :=
  node_invariant_completed_not_active.2.2 _
    (ReachableNodeState.step _ ReachableNodeState.init)

theorem runHandleErrors_general (m : Nat) (msgs : List String) : ∀ st : NodeState,
    (runHandleErrors m st msgs).1 = { st with errors := st.errors ++ msgs } ∧
    (runHandleErrors m st msgs).2 =
      (List.range msgs.length).map (fun k => decide (m ≤ st.errors.length + k + 1)) := by
  induction msgs with
  | nil =>
    intro st
    constructor
    · simp [runHandleErrors]
    · simp [runHandleErrors]
  | cons e es ih =>
    intro st
    obtain ⟨h1, h2⟩ := ih { st with errors := st.errors ++ [e] }
    constructor
    · simp only [runHandleErrors, handle_error_fst, h1]
      simp [List.append_assoc]
    · simp only [runHandleErrors, handle_error_fst, h2, handle_error_raised,
        List.length_cons, List.range_succ_eq_map, List.map_cons, List.map_map,
        List.cons.injEq]
      constructor
      · simp
      · apply List.map_congr_left
        intro k _
        simp only [Function.comp_apply, List.length_append, List.length_cons,
          List.length_nil, decide_eq_decide]
        omega

/-- C3: on a node with `max_iterations ≥ 1` and an initially empty error
list, every `handle_error` call appends its message (so after the calls the
error list is exactly the list of messages); calling it exactly
`max_iterations` times raises `MaxIterationsExceeded` on the last call and
on no earlier one, and calling it `max_iterations - 1` times raises
nothing. -/
theorem handle_error_iteration_budget (m : Nat) (st : NodeState) (msgs : List String)
    (hm : 1 ≤ m) (h0 : st.errors = []) :
    ((runHandleErrors m st msgs).1.errors = msgs) ∧
    (msgs.length = m →
      (runHandleErrors m st msgs).2.getLast? = some true ∧
      ∀ fl ∈ (runHandleErrors m st msgs).2.dropLast, fl = false) ∧
    (msgs.length = m - 1 → ∀ fl ∈ (runHandleErrors m st msgs).2, fl = false) := by
  obtain ⟨h1, h2⟩ := runHandleErrors_general m msgs st
  rw [h0] at h1 h2
  simp only [List.length_nil, Nat.zero_add] at h2
  refine ⟨by simp [h1], ?_, ?_⟩
  · intro hlen
    rw [h2, hlen]
    have hm' : m = (m - 1) + 1 := by omega
    rw [hm', List.range_succ, List.map_append, List.map_cons, List.map_nil]
    constructor
    · rw [List.getLast?_concat]
      simp only [Option.some.injEq, decide_eq_true_eq]
      omega
    · rw [List.dropLast_concat]
      intro fl hfl
      obtain ⟨k, hk, rfl⟩ := List.mem_map.mp hfl
      rw [List.mem_range] at hk
      simp only [decide_eq_false_iff_not]
      omega
  · intro hlen
    rw [h2, hlen]
    intro fl hfl
    obtain ⟨k, hk, rfl⟩ := List.mem_map.mp hfl
    rw [List.mem_range] at hk
    simp only [decide_eq_false_iff_not]
    omega

theorem handle_error_iteration_budget_witness :
    (runHandleErrors 2 initNodeState ["first", "second"]).1.errors = ["first", "second"] ∧
    (runHandleErrors 2 initNodeState ["first", "second"]).2.getLast? = some true ∧
    (∀ fl ∈ (runHandleErrors 2 initNodeState ["first"]).2, fl = false) :=
  ⟨(handle_error_iteration_budget 2 initNodeState ["first", "second"]
      (by decide) rfl).1,
   ((handle_error_iteration_budget 2 initNodeState ["first", "second"]
      (by decide) rfl).2.1 rfl).1,
   (handle_error_iteration_budget 2 initNodeState ["first"]
      (by decide) rfl).2.2 rfl⟩

theorem getD_set_self (l : List WorkflowNode) (i : Nat) (x : WorkflowNode)
    (h : i < l.length) : (l.set i x).getD i default = x := by
  simp [List.getD_eq_getElem?_getD, List.getElem?_set_self h]

theorem getD_set_ne (l : List WorkflowNode) (i j : Nat) (x : WorkflowNode)
    (h : i ≠ j) : (l.set i x).getD j default = l.getD j default := by
  simp [List.getD_eq_getElem?_getD, List.getElem?_set_ne h]

theorem add_next_node_getD (g : List WorkflowNode) (a b : Nat)
    (ha : a < g.length) (hb : b < g.length) :
    ((add_next_node g a b).getD a default).next_nodes
      = (g.getD a default).next_nodes ++ [b] ∧
    ((add_next_node g a b).getD b default).previous_nodes
      = (g.getD b default).previous_nodes ++ [a] := by
  by_cases hab : a = b
  · subst hab
    simp only [add_next_node]
    rw [getD_set_self _ _ _ (by simpa using ha)]
    rw [getD_set_self _ _ _ (by simpa using ha)]
    exact ⟨rfl, rfl⟩
  · simp only [add_next_node]
    rw [getD_set_self _ _ _ (by simpa using hb)]
    rw [getD_set_ne _ _ _ _ (Ne.symm hab), getD_set_ne _ _ _ _ hab,
      getD_set_self _ _ _ ha]
    exact ⟨rfl, rfl⟩

/-- C4 (amended): after `A.add_next_node(B)`, `B` appears in `A`'s next-node
list and `A` appears in `B`'s previous-node list; but insertion is not
idempotent: each call appends one more occurrence of each endpoint (so two
identical calls leave two occurrences, not one). -/
theorem add_next_node_links (g : List WorkflowNode) (a b : Nat)
    (ha : a < g.length) (hb : b < g.length) :
    (b ∈ ((add_next_node g a b).getD a default).next_nodes ∧
     a ∈ ((add_next_node g a b).getD b default).previous_nodes) ∧
    ((add_next_node g a b).getD a default).next_nodes.count b
      = (g.getD a default).next_nodes.count b + 1 ∧
    ((add_next_node g a b).getD b default).previous_nodes.count a
      = (g.getD b default).previous_nodes.count a + 1 := by
  obtain ⟨h1, h2⟩ := add_next_node_getD g a b ha hb
  rw [h1, h2]
  refine ⟨⟨?_, ?_⟩, ?_, ?_⟩ <;> simp [List.count_append]

/-- Configuration of the concrete stage "A" (requires the analyst). -/
def cexConfigA : NodeConfig :=
  { name := "A", description := "first stage", required_agents := ["analyst"], max_iterations := 3, timeout_seconds := 60, auto_proceed := true }

/-- Configuration of the concrete stage "B" (requires no agent). -/
def cexConfigB : NodeConfig :=
  { name := "B", description := "second stage", required_agents := [], max_iterations := 3, timeout_seconds := 60, auto_proceed := true }

/-- Concrete two-node graph (a stage "A" requiring the analyst, then a
stage "B") used as input for counterexamples and witnesses. -/
def cexGraph : List WorkflowNode :=
  [{ config := cexConfigA, state := initNodeState, next_nodes := [], previous_nodes := [], participating_agents := [] },
   { config := cexConfigB, state := initNodeState, next_nodes := [], previous_nodes := [], participating_agents := [] }]

/-- C4 counterexample: calling `add_next_node` twice with the same pair on
a concrete two-node graph leaves the successor in the next-node list twice
and the predecessor in the previous-node list twice — not exactly once as
the claim states. -/
theorem add_next_node_twice_not_once :
    ((add_next_node (add_next_node cexGraph 0 1) 0 1).getD 0
        default).next_nodes.count 1 = 2 ∧
    ((add_next_node (add_next_node cexGraph 0 1) 0 1).getD 1
        default).previous_nodes.count 0 = 2 := by
  decide

theorem add_next_node_links_witness :
    (1 ∈ ((add_next_node cexGraph 0 1).getD 0 default).next_nodes ∧
     0 ∈ ((add_next_node cexGraph 0 1).getD 1 default).previous_nodes) ∧
    ((add_next_node cexGraph 0 1).getD 0 default).next_nodes.count 1
      = (cexGraph.getD 0 default).next_nodes.count 1 + 1 ∧
    ((add_next_node cexGraph 0 1).getD 1 default).previous_nodes.count 0
      = (cexGraph.getD 1 default).previous_nodes.count 0 + 1 :=
  add_next_node_links cexGraph 0 1 (by decide) (by decide)

/-- C2: `validate_readiness` mutates neither the agent registry nor the
graph; it fails (raising the missing-agents `ValueError`) exactly when some
name in `required_agents` is not among the bound participating-agent keys;
and when it does not fail, it returns `true` iff every predecessor node's
`completed` flag is true (AND over all predecessors). -/
theorem validate_readiness_spec (agents : List (String × AgentState))
    (g : List WorkflowNode) (i : Nat) :
    ((validate_readiness agents g i).1 = (agents, g)) ∧
    ((∃ e, (validate_readiness agents g i).2 = .error e) ↔
      ¬ ∀ r ∈ (g.getD i default).config.required_agents,
          r ∈ (g.getD i default).participating_agents.map Prod.fst) ∧
    (∀ br, (validate_readiness agents g i).2 = .ok br →
      (br = true ↔ ∀ j ∈ (g.getD i default).previous_nodes,
        (g.getD j default).state.completed = true)) := by
  refine ⟨rfl, ?_, ?_⟩ <;>
    simp only [validate_readiness] <;>
    by_cases hmiss : ((g.getD i default).config.required_agents.filter
      (fun r => !((g.getD i default).participating_agents.map Prod.fst).contains r)).isEmpty
  · simp only [hmiss, if_true]
    constructor
    · rintro ⟨e, he⟩
      exact absurd he (by simp)
    · intro hnot
      exfalso
      apply hnot
      intro r hr
      have := (List.isEmpty_iff.mp hmiss)
      have hall := List.filter_eq_nil_iff.mp this
      have := hall r hr
      simpa using this
  · simp only [hmiss, if_false]
    constructor
    · intro _
      intro hall
      have : ((g.getD i default).config.required_agents.filter
          (fun r => !((g.getD i default).participating_agents.map Prod.fst).contains r)) = [] := by
        apply List.filter_eq_nil_iff.mpr
        intro r hr
        simpa using hall r hr
      rw [this] at hmiss
      simp at hmiss
    · intro _
      exact ⟨_, rfl⟩
  · simp only [hmiss, if_true]
    intro br hbr
    have hbr' : br = (g.getD i default).previous_nodes.all
        (fun j => (g.getD j default).state.completed) := by
      exact (Except.ok.injEq _ _).mp hbr.symm
    rw [hbr']
    exact List.all_eq_true
  · simp only [hmiss, if_false]
    intro br hbr
    exact absurd hbr (by simp)

theorem validate_readiness_spec_witness :
    (validate_readiness [] cexGraph 1).1 = ([], cexGraph) ∧
    (true = true ↔ ∀ j ∈ (cexGraph.getD 1 default).previous_nodes,
      (cexGraph.getD j default).state.completed = true) :=
  ⟨(validate_readiness_spec [] cexGraph 1).1,
   (validate_readiness_spec [] cexGraph 1).2.2 true rfl⟩

theorem char_toNat_ofNat (n : Nat) (h : n < 55296) : (Char.ofNat n).toNat = n := by
  rw [Char.ofNat, dif_pos (Or.inl h : n.isValidChar)]
  rfl

theorem lowerChar_not_upper (c : Char) : isUpperAscii (lowerChar c) = false := by
  rw [lowerChar]
  by_cases h : 65 ≤ c.toNat ∧ c.toNat ≤ 90
  · rw [if_pos h]
    have ht : (Char.ofNat (c.toNat + 32)).toNat = c.toNat + 32 :=
      char_toNat_ofNat _ (by omega)
    simp only [isUpperAscii, ht]
    simp only [Bool.and_eq_false_iff, decide_eq_false_iff_not]
    omega
  · rw [if_neg h]
    simp only [isUpperAscii, Bool.and_eq_false_iff, decide_eq_false_iff_not]
    omega

theorem pyLower_no_upper (s : String) : ∀ c ∈ (pyLower s).data, isUpperAscii c = false := by
  intro c hc
  have hc' : c ∈ s.data.map lowerChar := hc
  obtain ⟨c0, _, rfl⟩ := List.mem_map.mp hc'
  exact lowerChar_not_upper c0

/-- C9: `connect_agent` binds the agent exactly when the lowercased
personality name is a member of `required_agents`, storing the agent under
the lowercased name; when the lowercased name is not a member the node is
returned unchanged (no error); and a required-agent entry containing an
ASCII uppercase letter can never equal any lowercased name, so such an
entry is never bound by `connect_agent`. -/
theorem connect_agent_spec :
    (∀ (node : WorkflowNode) (name : String),
      pyLower name ∈ node.config.required_agents →
        connect_agent node name = { node with participating_agents := dictSet node.participating_agents (pyLower name) name }) ∧
    (∀ (node : WorkflowNode) (name : String),
      pyLower name ∉ node.config.required_agents →
        connect_agent node name = node) ∧
    (∀ r : String, (∃ c ∈ r.data, isUpperAscii c = true) →
      ∀ name : String, pyLower name ≠ r) := by
  refine ⟨?_, ?_, ?_⟩
  · intro node name h
    rw [connect_agent, if_pos]
    rw [List.contains_iff_exists_mem_beq]
    exact ⟨pyLower name, h, by simp⟩
  · intro node name h
    rw [connect_agent, if_neg]
    intro hcon
    rw [List.contains_iff_exists_mem_beq] at hcon
    obtain ⟨r, hr, hbeq⟩ := hcon
    rw [beq_iff_eq] at hbeq
    exact h (hbeq ▸ hr)
  · rintro r ⟨c, hc, hupper⟩ name heq
    have : c ∈ (pyLower name).data := by rw [heq]; exact hc
    rw [pyLower_no_upper name c this] at hupper
    exact Bool.false_ne_true hupper

/-- Concrete node used by the `connect_agent` witness: the stage "A"
requiring the lowercase name "analyst". -/
def cexNodeA : WorkflowNode :=
  { config := cexConfigA, state := initNodeState, next_nodes := [], previous_nodes := [], participating_agents := [] }

theorem connect_agent_spec_witness :
    connect_agent cexNodeA "Analyst" = { cexNodeA with participating_agents := dictSet cexNodeA.participating_agents (pyLower "Analyst") "Analyst" } ∧
    pyLower "analyst" ≠ "Analyst" :=
  ⟨connect_agent_spec.1 cexNodeA "Analyst" (by decide),
   connect_agent_spec.2.2 "Analyst" (by decide) "analyst"⟩

/-- C10 counterexample: the key "dict" names a pydantic `BaseModel`
attribute that is not an `AgentState` field, so the source's `hasattr` test
succeeds and `setattr` reaches pydantic's `__setattr__`, which raises
`ValueError` — `update_state` raises on such a key instead of silently
ignoring it, refuting the claim that every key not naming a field is
silently ignored with the state unchanged and no error. -/
theorem update_state_nonfield_raises :
    (update_state initAgentState [.nonFieldAttr "dict"]).2
      = .error (.message "\"AgentState\" object has no field \"dict\"") := rfl

/-- C10 (amended): `update_state` sets only those keys of the supplied
mapping that name an existing `AgentState` field (each field receives the
last value assigned to it, and fields the mapping never names are
unchanged); a key naming no attribute at all is silently ignored, and a
mapping of only such keys leaves the state unchanged; but a key naming a
pydantic non-field attribute (such as "dict") raises `ValueError` at that
entry, keeping the assignments already made and applying none of the later
entries. -/
theorem update_state_fields (st : AgentState) (entries : List StateUpdateEntry) :
    ((∀ e ∈ entries, e.isNonField = false) →
      ((update_state st entries).2 = .ok ()) ∧
      ((update_state st entries).1.current_task = (lastSetTask entries).getD st.current_task) ∧
      ((update_state st entries).1.memory = (lastSetMemory entries).getD st.memory) ∧
      ((update_state st entries).1.confidence = (lastSetConfidence entries).getD st.confidence) ∧
      ((update_state st entries).1.context = (lastSetContext entries).getD st.context)) ∧
    ((∀ e ∈ entries, e.isUnknown = true) → update_state st entries = (st, .ok ())) ∧
    (∀ (pre post : List StateUpdateEntry) (k : String),
      (∀ e ∈ pre, e.isNonField = false) →
      update_state st (pre ++ .nonFieldAttr k :: post)
        = ((update_state st pre).1, .error (noFieldError k))) := by
  refine ⟨?_, ?_, ?_⟩
  · induction entries generalizing st with
    | nil =>
      intro _
      simp [update_state, lastSetTask, lastSetMemory, lastSetConfidence, lastSetContext]
    | cons e es ih =>
      intro hall
      have he : e.isNonField = false := hall e (by simp)
      have hes : ∀ x ∈ es, x.isNonField = false := fun x hx => hall x (by simp [hx])
      cases e with
      | nonFieldAttr k => simp [StateUpdateEntry.isNonField] at he
      | setTask v =>
        obtain ⟨j0, j1, j2, j3, j4⟩ := ih { st with current_task := v } hes
        refine ⟨j0, ?_, ?_, ?_, ?_⟩
        · rw [show update_state st (.setTask v :: es) = update_state { st with current_task := v } es from rfl, j1]
          cases h : lastSetTask es <;> simp [lastSetTask, h]
        · rw [show update_state st (.setTask v :: es) = update_state { st with current_task := v } es from rfl, j2]
          cases h : lastSetMemory es <;> simp [lastSetMemory, h]
        · rw [show update_state st (.setTask v :: es) = update_state { st with current_task := v } es from rfl, j3]
          cases h : lastSetConfidence es <;> simp [lastSetConfidence, h]
        · rw [show update_state st (.setTask v :: es) = update_state { st with current_task := v } es from rfl, j4]
          cases h : lastSetContext es <;> simp [lastSetContext, h]
      | setMemory v =>
        obtain ⟨j0, j1, j2, j3, j4⟩ := ih { st with memory := v } hes
        refine ⟨j0, ?_, ?_, ?_, ?_⟩
        · rw [show update_state st (.setMemory v :: es) = update_state { st with memory := v } es from rfl, j1]
          cases h : lastSetTask es <;> simp [lastSetTask, h]
        · rw [show update_state st (.setMemory v :: es) = update_state { st with memory := v } es from rfl, j2]
          cases h : lastSetMemory es <;> simp [lastSetMemory, h]
        · rw [show update_state st (.setMemory v :: es) = update_state { st with memory := v } es from rfl, j3]
          cases h : lastSetConfidence es <;> simp [lastSetConfidence, h]
        · rw [show update_state st (.setMemory v :: es) = update_state { st with memory := v } es from rfl, j4]
          cases h : lastSetContext es <;> simp [lastSetContext, h]
      | setConfidence v =>
        obtain ⟨j0, j1, j2, j3, j4⟩ := ih { st with confidence := v } hes
        refine ⟨j0, ?_, ?_, ?_, ?_⟩
        · rw [show update_state st (.setConfidence v :: es) = update_state { st with confidence := v } es from rfl, j1]
          cases h : lastSetTask es <;> simp [lastSetTask, h]
        · rw [show update_state st (.setConfidence v :: es) = update_state { st with confidence := v } es from rfl, j2]
          cases h : lastSetMemory es <;> simp [lastSetMemory, h]
        · rw [show update_state st (.setConfidence v :: es) = update_state { st with confidence := v } es from rfl, j3]
          cases h : lastSetConfidence es <;> simp [lastSetConfidence, h]
        · rw [show update_state st (.setConfidence v :: es) = update_state { st with confidence := v } es from rfl, j4]
          cases h : lastSetContext es <;> simp [lastSetContext, h]
      | setContext v =>
        obtain ⟨j0, j1, j2, j3, j4⟩ := ih { st with context := v } hes
        refine ⟨j0, ?_, ?_, ?_, ?_⟩
        · rw [show update_state st (.setContext v :: es) = update_state { st with context := v } es from rfl, j1]
          cases h : lastSetTask es <;> simp [lastSetTask, h]
        · rw [show update_state st (.setContext v :: es) = update_state { st with context := v } es from rfl, j2]
          cases h : lastSetMemory es <;> simp [lastSetMemory, h]
        · rw [show update_state st (.setContext v :: es) = update_state { st with context := v } es from rfl, j3]
          cases h : lastSetConfidence es <;> simp [lastSetConfidence, h]
        · rw [show update_state st (.setContext v :: es) = update_state { st with context := v } es from rfl, j4]
          cases h : lastSetContext es <;> simp [lastSetContext, h]
      | unknownKey k =>
        obtain ⟨j0, j1, j2, j3, j4⟩ := ih st hes
        refine ⟨j0, ?_, ?_, ?_, ?_⟩
        · rw [show update_state st (.unknownKey k :: es) = update_state st es from rfl, j1]
          cases h : lastSetTask es <;> simp [lastSetTask, h]
        · rw [show update_state st (.unknownKey k :: es) = update_state st es from rfl, j2]
          cases h : lastSetMemory es <;> simp [lastSetMemory, h]
        · rw [show update_state st (.unknownKey k :: es) = update_state st es from rfl, j3]
          cases h : lastSetConfidence es <;> simp [lastSetConfidence, h]
        · rw [show update_state st (.unknownKey k :: es) = update_state st es from rfl, j4]
          cases h : lastSetContext es <;> simp [lastSetContext, h]
  · induction entries generalizing st with
    | nil => intro _; rfl
    | cons e es ih =>
      intro hall
      have he : e.isUnknown = true := hall e (by simp)
      cases e with
      | unknownKey k => exact ih st (fun x hx => hall x (by simp [hx]))
      | setTask v => simp [StateUpdateEntry.isUnknown] at he
      | setMemory v => simp [StateUpdateEntry.isUnknown] at he
      | setConfidence v => simp [StateUpdateEntry.isUnknown] at he
      | setContext v => simp [StateUpdateEntry.isUnknown] at he
      | nonFieldAttr k => simp [StateUpdateEntry.isUnknown] at he
  · intro pre post k
    induction pre generalizing st with
    | nil => intro _; rfl
    | cons e pre ih =>
      intro hpre
      have he : e.isNonField = false := hpre e (by simp)
      have hpre' : ∀ x ∈ pre, x.isNonField = false := fun x hx => hpre x (by simp [hx])
      cases e with
      | nonFieldAttr k2 => simp [StateUpdateEntry.isNonField] at he
      | setTask v =>
        rw [show update_state st ((.setTask v :: pre) ++ .nonFieldAttr k :: post) = update_state { st with current_task := v } (pre ++ .nonFieldAttr k :: post) from rfl,
          ih { st with current_task := v } hpre']
        rfl
      | setMemory v =>
        rw [show update_state st ((.setMemory v :: pre) ++ .nonFieldAttr k :: post) = update_state { st with memory := v } (pre ++ .nonFieldAttr k :: post) from rfl,
          ih { st with memory := v } hpre']
        rfl
      | setConfidence v =>
        rw [show update_state st ((.setConfidence v :: pre) ++ .nonFieldAttr k :: post) = update_state { st with confidence := v } (pre ++ .nonFieldAttr k :: post) from rfl,
          ih { st with confidence := v } hpre']
        rfl
      | setContext v =>
        rw [show update_state st ((.setContext v :: pre) ++ .nonFieldAttr k :: post) = update_state { st with context := v } (pre ++ .nonFieldAttr k :: post) from rfl,
          ih { st with context := v } hpre']
        rfl
      | unknownKey k2 =>
        rw [show update_state st ((.unknownKey k2 :: pre) ++ .nonFieldAttr k :: post) = update_state st (pre ++ .nonFieldAttr k :: post) from rfl,
          ih st hpre']
        rfl

theorem update_state_fields_witness :
    (update_state initAgentState [.setConfidence (1/2), .unknownKey "bogus"]).1.confidence = 1/2 ∧
    update_state initAgentState [.unknownKey "bogus"] = (initAgentState, .ok ()) ∧
    update_state initAgentState [.setConfidence (1/2), .nonFieldAttr "dict", .setConfidence (1/4)]
      = ((update_state initAgentState [.setConfidence (1/2)]).1, .error (noFieldError "dict")) := by
  refine ⟨?_, ?_, ?_⟩
  · rw [((update_state_fields initAgentState [.setConfidence (1/2), .unknownKey "bogus"]).1
      (by intro e he; simp only [List.mem_cons, List.not_mem_nil, or_false] at he; rcases he with rfl | rfl <;> rfl)).2.2.2.1]
    rfl
  · exact (update_state_fields initAgentState [.unknownKey "bogus"]).2.1
      (by intro e he; simp only [List.mem_singleton] at he; subst he; rfl)
  · exact (update_state_fields initAgentState [.setConfidence (1/2), .nonFieldAttr "dict", .setConfidence (1/4)]).2.2
      [.setConfidence (1/2)] [.setConfidence (1/4)] "dict"
      (by intro e he; simp only [List.mem_singleton] at he; subst he; rfl)

theorem analystProcess_confidence (impl : AnalystImpl) (a : AnalystAgent)
    (now : String) (input : PyVal) :
    ((∃ r, (analystProcess impl a now input).2 = .ok r) →
      (analystProcess impl a now input).1.state.confidence = a.state.confidence) ∧
    ((∃ e, (analystProcess impl a now input).2 = .error e) →
      (analystProcess impl a now input).1.state.confidence
        = a.state.confidence * (4/5)) := by
  simp only [analystProcess]
  split
  · constructor
    · intro _; rfl
    · rintro ⟨e, he⟩; simp at he
  · constructor
    · rintro ⟨r, hr⟩; simp at hr
    · intro _; rfl

theorem analystCollaborate_confidence (impl : AnalystImpl) (a : AnalystAgent)
    (peerName : String) (peerProcess : PyVal → Except String PyVal)
    (now : String) (context : PyVal) :
    ((∃ r, (analystCollaborate impl a peerName peerProcess now context).2 = .ok r) →
      (analystCollaborate impl a peerName peerProcess now context).1.state.confidence
        = a.state.confidence) ∧
    ((∃ e, (analystCollaborate impl a peerName peerProcess now context).2 = .error e) →
      (analystCollaborate impl a peerName peerProcess now context).1.state.confidence
        = a.state.confidence * (9/10)) := by
  simp only [analystCollaborate]
  split
  · constructor
    · intro _; rfl
    · rintro ⟨e, he⟩; simp at he
  · constructor
    · rintro ⟨r, hr⟩; simp at hr
    · intro _; rfl

theorem doCall_conf_cases (a : AnalystAgent) (c : AgentCall) :
    (doCall a c).1.state.confidence = a.state.confidence ∨
    (doCall a c).1.state.confidence = a.state.confidence * (4/5) ∨
    (doCall a c).1.state.confidence = a.state.confidence * (9/10) := by
  cases c with
  | callProcess impl now input =>
    rcases h : (analystProcess impl a now input).2 with e | r
    · right; left
      exact (analystProcess_confidence impl a now input).2 ⟨e, h⟩
    · left
      exact (analystProcess_confidence impl a now input).1 ⟨r, h⟩
  | callCollaborate impl pn pp now ctx =>
    rcases h : (analystCollaborate impl a pn pp now ctx).2 with e | r
    · right; right
      exact (analystCollaborate_confidence impl a pn pp now ctx).2 ⟨e, h⟩
    · left
      exact (analystCollaborate_confidence impl a pn pp now ctx).1 ⟨r, h⟩

theorem runCalls_process_fail_conf (cs : List AgentCall) : ∀ a : AnalystAgent,
    (∀ c ∈ cs, c.isProcess) → allCallsFail a cs →
    (runCalls a cs).state.confidence = a.state.confidence * (4/5) ^ cs.length := by
  induction cs with
  | nil => intro a _ _; simp [runCalls]
  | cons c cs ih =>
    rintro a hall ⟨hf, hrest⟩
    have hstep : runCalls a (c :: cs) = runCalls (doCall a c).1 cs := rfl
    rw [hstep, ih (doCall a c).1 (fun x hx => hall x (List.mem_cons_of_mem _ hx)) hrest]
    have hc : (doCall a c).1.state.confidence = a.state.confidence * (4/5) := by
      cases c with
      | callProcess impl now input =>
        obtain ⟨e, he⟩ := hf
        exact (analystProcess_confidence impl a now input).2 ⟨e, he⟩
      | callCollaborate impl pn pp now ctx =>
        have := hall _ (List.mem_cons_self _ _)
        simp [AgentCall.isProcess] at this
    rw [hc, List.length_cons]
    ring

theorem runCalls_collab_fail_conf (cs : List AgentCall) : ∀ a : AnalystAgent,
    (∀ c ∈ cs, c.isCollaborate) → allCallsFail a cs →
    (runCalls a cs).state.confidence = a.state.confidence * (9/10) ^ cs.length := by
  induction cs with
  | nil => intro a _ _; simp [runCalls]
  | cons c cs ih =>
    rintro a hall ⟨hf, hrest⟩
    have hstep : runCalls a (c :: cs) = runCalls (doCall a c).1 cs := rfl
    rw [hstep, ih (doCall a c).1 (fun x hx => hall x (List.mem_cons_of_mem _ hx)) hrest]
    have hc : (doCall a c).1.state.confidence = a.state.confidence * (9/10) := by
      cases c with
      | callProcess impl now input =>
        have := hall _ (List.mem_cons_self _ _)
        simp [AgentCall.isCollaborate] at this
      | callCollaborate impl pn pp now ctx =>
        obtain ⟨e, he⟩ := hf
        exact (analystCollaborate_confidence impl a pn pp now ctx).2 ⟨e, he⟩
    rw [hc, List.length_cons]
    ring

theorem runCalls_conf_nonneg (cs : List AgentCall) : ∀ a : AnalystAgent,
    0 ≤ a.state.confidence → 0 ≤ (runCalls a cs).state.confidence := by
  induction cs with
  | nil => intro a h; exact h
  | cons c cs ih =>
    intro a h
    have hstep : runCalls a (c :: cs) = runCalls (doCall a c).1 cs := rfl
    rw [hstep]
    apply ih
    rcases doCall_conf_cases a c with h1 | h1 | h1 <;> rw [h1]
    · exact h
    · exact mul_nonneg h (by norm_num)
    · exact mul_nonneg h (by norm_num)

/-- C1: starting from the initial confidence 1.0, a sequence of N process
calls that all fail leaves the agent's confidence at (4/5)^N = 0.8^N, a
sequence of N collaborate calls that all fail leaves it at
(9/10)^N = 0.9^N, and extending any sequence of process/collaborate calls
by one more call never increases confidence. -/
theorem confidence_decay (cs : List AgentCall) :
    ((∀ c ∈ cs, c.isProcess) → allCallsFail initAnalyst cs →
      (runCalls initAnalyst cs).state.confidence = (4/5 : ℚ) ^ cs.length) ∧
    ((∀ c ∈ cs, c.isCollaborate) → allCallsFail initAnalyst cs →
      (runCalls initAnalyst cs).state.confidence = (9/10 : ℚ) ^ cs.length) ∧
    (∀ c : AgentCall, (runCalls initAnalyst (cs ++ [c])).state.confidence ≤
      (runCalls initAnalyst cs).state.confidence) := by
  refine ⟨?_, ?_, ?_⟩
  · intro hall hfail
    rw [runCalls_process_fail_conf cs initAnalyst hall hfail]
    norm_num [initAnalyst, initAgentState]
  · intro hall hfail
    rw [runCalls_collab_fail_conf cs initAnalyst hall hfail]
    norm_num [initAnalyst, initAgentState]
  · intro c
    have hmono : runCalls initAnalyst (cs ++ [c])
        = (doCall (runCalls initAnalyst cs) c).1 := by
      simp [runCalls, List.foldl_append]
    rw [hmono]
    have hnn : 0 ≤ (runCalls initAnalyst cs).state.confidence :=
      runCalls_conf_nonneg cs initAnalyst (by norm_num [initAnalyst, initAgentState])
    rcases doCall_conf_cases (runCalls initAnalyst cs) c with h | h | h <;> rw [h] <;>
      linarith

theorem confidence_decay_witness :
    (runCalls initAnalyst [.callProcess failingImpl "ts" .pnone,
        .callProcess failingImpl "ts" .pnone]).state.confidence = (4/5 : ℚ) ^ 2 ∧
    (runCalls initAnalyst [.callCollaborate failingImpl "Peer"
        (fun _ => .error "peer down") "ts" .pnone]).state.confidence = (9/10 : ℚ) ^ 1 := by
  constructor
  · refine (confidence_decay _).1 ?_ ?_
    · intro c hc
      simp only [List.mem_cons, List.mem_singleton, List.not_mem_nil, or_false] at hc
      rcases hc with rfl | rfl <;> trivial
    · exact ⟨⟨_, rfl⟩, ⟨_, rfl⟩, trivial⟩
  · refine (confidence_decay _).2.1 ?_ ?_
    · intro c hc
      simp only [List.mem_singleton] at hc
      subst hc
      trivial
    · exact ⟨⟨_, rfl⟩, trivial⟩

theorem except_bind_ok {ε α β : Type} (a : α) (f : α → Except ε β) :
    (Except.ok a : Except ε α) >>= f = f a := rfl

theorem except_bind_error {ε α β : Type} (e : ε) (f : α → Except ε β) :
    (Except.error e : Except ε α) >>= f = (.error e : Except ε β) := rfl

theorem collaborateBody_peer_error (impl : AnalystImpl) (a : AnalystAgent)
    (peerName : String) (peerProcess : PyVal → Except String PyVal)
    (now : String) (context : PyVal) (e : String)
    (h : peerProcess context = .error e) :
    collaborateBody impl a peerName peerProcess now context = .error e := by
  unfold collaborateBody
  rw [h, except_bind_error]

theorem collaborateBody_ok_shape (impl : AnalystImpl) (a : AnalystAgent)
    (peerName : String) (peerProcess : PyVal → Except String PyVal)
    (now : String) (context : PyVal) (res : PyVal)
    (h : collaborateBody impl a peerName peerProcess now context = .ok res) :
    ∃ combined insights, res = PyVal.pdict [("combined_analysis", combined), ("collaborative_insights", .plist insights), ("confidence_score", .pnum a.state.confidence), ("collaboration_metadata", .pdict [("partner", .pstr peerName), ("timestamp", .pstr now)])] := by
  unfold collaborateBody at h
  rcases hp : peerProcess context with e | o <;> rw [hp] at h
  · rw [except_bind_error] at h
    exact absurd h (by simp)
  · rw [except_bind_ok] at h
    rcases hv : impl.validate_external_analysis o with e | v <;> rw [hv] at h
    · rw [except_bind_error] at h
      exact absurd h (by simp)
    · rw [except_bind_ok] at h
      rcases hc : impl.combine_analyses a.current_analysis v with e | cb <;> rw [hc] at h
      · rw [except_bind_error] at h
        exact absurd h (by simp)
      · rw [except_bind_ok] at h
        rcases hi : impl.generate_collaborative_insights cb peerName with e | ins <;>
          rw [hi] at h
        · rw [except_bind_error] at h
          exact absurd h (by simp)
        · rw [except_bind_ok] at h
          exact ⟨cb, ins, (Except.ok.inj h).symm⟩

/-- C7: `collaborate` sets the caller's current-task label to the string
"collaboration_with_" followed by the peer's personality name (a label that
names the peer); it invokes the peer's `process` on the shared context — a
raising peer makes the collaboration raise, wrapping the peer's message;
and on success the returned payload's `collaboration_metadata` records the
peer's name as partner together with the timestamp. -/
theorem collaborate_spec (impl : AnalystImpl) (a : AnalystAgent) (peerName : String)
    (peerProcess : PyVal → Except String PyVal) (now : String) (context : PyVal) :
    ((analystCollaborate impl a peerName peerProcess now context).1.state.current_task
      = some ("collaboration_with_" ++ peerName)) ∧
    (∀ e, peerProcess context = .error e →
      (analystCollaborate impl a peerName peerProcess now context).2
        = .error (.message ("Collaborative analysis failed: " ++ e))) ∧
    (∀ res, (analystCollaborate impl a peerName peerProcess now context).2 = .ok res →
      ∃ entries, res = PyVal.pdict entries ∧
        dictGet "collaboration_metadata" entries
          = some (.pdict [("partner", .pstr peerName), ("timestamp", .pstr now)])) := by
  refine ⟨?_, ?_, ?_⟩
  · simp only [analystCollaborate]
    split <;> rfl
  · intro e he
    have hb := collaborateBody_peer_error impl
      { a with state := (update_state a.state [.setTask (some ("collaboration_with_" ++ peerName))]).1 }
      peerName peerProcess now context e he
    simp only [analystCollaborate, hb]
  · intro res hres
    simp only [analystCollaborate] at hres
    split at hres
    next result heq =>
      obtain ⟨cb, ins, hshape⟩ :=
        collaborateBody_ok_shape impl _ peerName peerProcess now context result heq
      have hr : result = res := by simpa using hres
      subst hr
      exact ⟨_, hshape, rfl⟩
    next e heq =>
      simp at hres

theorem collaborate_spec_witness :
    ((analystCollaborate stubImpl initAnalyst "Researcher" (fun _ => .ok .pnone)
        "ts" .pnone).1.state.current_task
      = some ("collaboration_with_" ++ "Researcher")) ∧
    ((analystCollaborate stubImpl initAnalyst "Researcher" (fun _ => .error "peer down")
        "ts" .pnone).2
      = .error (.message ("Collaborative analysis failed: " ++ "peer down"))) :=
  ⟨(collaborate_spec stubImpl initAnalyst "Researcher" (fun _ => .ok .pnone)
      "ts" .pnone).1,
   (collaborate_spec stubImpl initAnalyst "Researcher" (fun _ => .error "peer down")
      "ts" .pnone).2.1 "peer down" rfl⟩

theorem prepare_data_error (impl : AnalystImpl) (input : PyVal) (c : String)
    (h : impl.validate_data input = .error c) :
    prepare_data impl input = .error ("Data preparation failed: " ++ c) := by
  unfold prepare_data
  rw [h, except_bind_error]

theorem processBody_prepare_error (impl : AnalystImpl) (a : AnalystAgent)
    (now : String) (input : PyVal) (c : String)
    (h : impl.validate_data input = .error c) :
    processBody impl a now input = .error ("Data preparation failed: " ++ c) := by
  unfold processBody
  rw [prepare_data_error impl input c h, except_bind_error]

/-- C8 counterexample: at a concrete failing input, the failure `process`
raises is the single flat message string "Analysis failed: Data preparation
failed: boom" (a `PyErr.message`, mirroring the source's
`Exception(f"Analysis failed: ...")`), not a structured error value with
stage and cause fields. -/
theorem process_failure_not_structured :
    (analystProcess failingImpl initAnalyst "ts" .pnone).2
      = .error (.message "Analysis failed: Data preparation failed: boom") ∧
    PyErr.isStructured (.message "Analysis failed: Data preparation failed: boom")
      = false :=
  ⟨rfl, rfl⟩

/-- C8 (amended): every failure of `process` is re-raised as a plain
message exception "Analysis failed: " followed by the causal message, and
every failure of `collaborate` as "Collaborative analysis failed: "
followed by the causal message — never a structured stage/cause value; the
internal phase is identified only by a prefix inside the message, e.g. a
data-preparation failure with cause `c` raises exactly
"Analysis failed: Data preparation failed: " ++ c. -/
theorem failure_messages (impl : AnalystImpl) (a : AnalystAgent) (now : String)
    (input context : PyVal) (peerName : String)
    (peerProcess : PyVal → Except String PyVal) :
    (∀ e, (analystProcess impl a now input).2 = .error e →
      ∃ s, e = .message ("Analysis failed: " ++ s)) ∧
    (∀ e, (analystCollaborate impl a peerName peerProcess now context).2 = .error e →
      ∃ s, e = .message ("Collaborative analysis failed: " ++ s)) ∧
    (∀ c, impl.validate_data input = .error c →
      (analystProcess impl a now input).2
        = .error (.message ("Analysis failed: Data preparation failed: " ++ c))) := by
  refine ⟨?_, ?_, ?_⟩
  · intro e he
    simp only [analystProcess] at he
    split at he
    next r heq => simp at he
    next e' heq =>
      refine ⟨e', ?_⟩
      simpa using he.symm
  · intro e he
    simp only [analystCollaborate] at he
    split at he
    next r heq => simp at he
    next e' heq =>
      refine ⟨e', ?_⟩
      simpa using he.symm
  · intro c hc
    have hb := processBody_prepare_error impl
      { a with state := (update_state a.state [.setTask (some "data_analysis")]).1 }
      now input c hc
    simp only [analystProcess, hb]
    rfl

theorem failure_messages_witness :
    (analystProcess failingImpl initAnalyst "ts" .pnone).2
      = .error (.message ("Analysis failed: Data preparation failed: " ++ "boom")) :=
  (failure_messages failingImpl initAnalyst "ts" .pnone .pnone "Peer"
    (fun _ => .ok .pnone)).2.2 "boom" rfl
